import Mathlib

/-!
Verification of the nsefeed session / bhav-copy fetch-and-cache pipeline.

This file shallowly embeds the core of the repository:
  * `nsefeed/utils.py`    — date validation and trading-day helpers
  * `nsefeed/cache.py`    — the SQLite OHLC cache (modelled as an in-memory
                            table with the same key/upsert semantics)
  * `nsefeed/session.py`  — response classification and the bounded retry loop
  * `nsefeed/scrapers/bhav_copy.py` — per-date snapshot fetch with format
                            fallback, and the per-symbol day-by-day walk

Dates are modelled as natural numbers counting days since Monday 1990-01-01,
so `weekday d = d % 7` with 0 = Monday, matching Python's `date.weekday()`.
Network and filesystem effects are modelled by explicit oracles: each network
download is an input to the function, and the number of attempted downloads is
returned alongside the result so that "no network call" claims are statable.
-/

set_option synthInstance.maxSize 1024

namespace NSEFeed

/-- Cell values of a pandas DataFrame as they occur in this pipeline:
strings, numbers (modelled as rationals), parsed dates, and NaN/None. -/
inductive Value where
  | str (s : String)
  | num (q : ℚ)
  | dateV (d : Nat)
  | null
deriving DecidableEq, Repr

/-- Python `str.upper()` (over the characters; agrees with ASCII upper-casing
on the symbols and headers this pipeline handles). -/
def strUpper (s : String) : String := ⟨s.data.map Char.toUpper⟩

/-- Python `str.lower()`. -/
def strLower (s : String) : String := ⟨s.data.map Char.toLower⟩

/-- Python `str.strip()`: drop whitespace from both ends. -/
def strTrim (s : String) : String :=
  ⟨((s.data.dropWhile Char.isWhitespace).reverse.dropWhile
      Char.isWhitespace).reverse⟩

/-- A DataFrame row: an association list from column name to value. -/
abbrev Row := List (String × Value)

/-- Pandas `row.get(c)` / `row[c]`: look up a column in a row. -/
def rowGet (r : Row) (c : String) : Option Value := r.lookup c

/-- Set (or add) a column value on a row, mirroring `df[c] = v` per row. -/
def rowSet (r : Row) (c : String) (v : Value) : Row :=
  if r.any (fun p => p.1 == c) then
    r.map (fun p => if p.1 == c then (c, v) else p)
  else
    r ++ [(c, v)]

/-- A pandas DataFrame: a list of column names and a list of rows. -/
structure DF where
  columns : List String
  rows : List Row
deriving DecidableEq, Repr

/-- Python `df.empty`. -/
def DF.isEmptyDF (df : DF) : Bool := df.rows.isEmpty

/-- Calendar dates, as days since Monday 1990-01-01. -/
abbrev Date := Nat

/-- Python `date.weekday()`: 0 = Monday … 6 = Sunday. -/
def date_weekday (d : Date) : Nat := d % 7

/-- `utils.is_trading_day`: Saturday (5) and Sunday (6) are not trading days. -/
def is_trading_day (d : Date) : Bool := date_weekday d < 5

/-- `date(1995, 1, 1)` — the clamp floor used by `validate_date_range`.
1995-01-01 is day 1826 of the chosen epoch (and indeed `1826 % 7 = 6`,
a Sunday, as 1995-01-01 was). -/
def MIN_DATE : Date := 1826

/-- The error taxonomy of `nsefeed/exceptions.py`, restricted to the
constructors and payload fields the core actually uses. -/
inductive Err where
  | dataNotFound (message : String) (symbol : Option String)
      (date_range : Option (Date × Date))
  | connError (status_code : Option Nat) (detail : Option String)
  | rateLimit (retry_after : ℚ)
  | sessionError
  | invalidDate
  | cacheError
  | parseError
deriving DecidableEq, Repr

/-- `utils.validate_date_range`: swap a reversed range, reject a range whose
(swapped) start is in the future, clamp the end down to today and the start up
to `MIN_DATE`. -/
def validate_date_range (start_date end_date today : Date)
    (allow_future : Bool) : Except Err (Date × Date) :=
  let s0 := if end_date < start_date then end_date else start_date
  let e0 := if end_date < start_date then start_date else end_date
  if !allow_future && decide (today < s0) then
    .error .invalidDate
  else
    let e1 := if !allow_future && decide (today < e0) then today else e0
    let s1 := if s0 < MIN_DATE then MIN_DATE else s0
    .ok (s1, e1)

/-- The inclusive day range walked by `fetch_for_symbol` / `fetch_bulk`
(`while current_date <= end_date`). Empty when `e < s`. -/
def date_range (s e : Date) : List Date :=
  (List.range (e + 1 - s)).map (s + ·)

/-! ## The OHLC cache (`nsefeed/cache.py`)

The `ohlc_data` SQLite table has `UNIQUE(symbol, trade_date)` and is written
with `INSERT OR REPLACE`, so it is modelled as a list of entries on which
insertion first deletes any entry with the same key.  Date strings
`"%Y-%m-%d"` compare in SQL exactly as the underlying dates do, so the
`trade_date` column is modelled directly as `Date`. -/

/-- One row of the `ohlc_data` table (`_init_db`).  A SQL `NULL` is the
value `Value.null`. -/
structure OhlcEntry where
  symbol : String
  trade_date : Date
  open_ : Value
  high : Value
  low : Value
  close : Value
  volume : Value
  value : Value
  trades : Value
deriving DecidableEq, Repr

/-- The whole `ohlc_data` table. -/
abbrev OhlcTable := List OhlcEntry

/-- The natural key of an `ohlc_data` row. -/
def OhlcEntry.key (e : OhlcEntry) : String × Date := (e.symbol, e.trade_date)

/-- A date-indexed DataFrame, as produced by `df.set_index("date")`:
each row tagged with its index date. -/
abbrev IndexedDF := List (Date × Row)

/-- Build the `ohlc_data` row inserted by `set_ohlc` for one DataFrame row:
the insert binds `row.get(c)` for each stored column (`None` when absent). -/
def entryOfRow (symbol : String) (d : Date) (r : Row) : OhlcEntry :=
  { symbol := symbol
    trade_date := d
    open_ := (rowGet r "open").getD .null
    high := (rowGet r "high").getD .null
    low := (rowGet r "low").getD .null
    close := (rowGet r "close").getD .null
    volume := (rowGet r "volume").getD .null
    value := (rowGet r "value").getD .null
    trades := (rowGet r "trades").getD .null }

/-- `INSERT OR REPLACE` against the `UNIQUE(symbol, trade_date)` constraint:
delete any row with the same key, then insert the new one. -/
def insertOrReplace (t : OhlcTable) (e : OhlcEntry) : OhlcTable :=
  t.filter (fun x => !(x.symbol == e.symbol && x.trade_date == e.trade_date))
    ++ [e]

/-- `NSECache.set_ohlc`: no-op on an empty frame, otherwise uppercase the
symbol and upsert one `ohlc_data` row per (date-indexed) DataFrame row. -/
def set_ohlc (symbol : String) (df : IndexedDF) (t : OhlcTable) : OhlcTable :=
  if df.isEmpty then t
  else
    let symbol := strUpper symbol
    df.foldl (fun acc dr => insertOrReplace acc (entryOfRow symbol dr.1 dr.2)) t

/-- The DataFrame row that `get_ohlc` reconstructs from a cached entry
(the selected columns, in `SELECT` order). -/
def OhlcEntry.toRow (e : OhlcEntry) : Row :=
  [("open", e.open_), ("high", e.high), ("low", e.low), ("close", e.close),
   ("volume", e.volume), ("value", e.value), ("trades", e.trades)]

/-- `NSECache.get_ohlc`: uppercase the symbol, select the rows with
`start_date <= trade_date <= end_date` ordered by `trade_date` ascending,
and return `None` when the selection is empty. -/
def get_ohlc (symbol : String) (start_date end_date : Date) (t : OhlcTable) :
    Option IndexedDF :=
  let symbol := strUpper symbol
  let sel := t.filter (fun e =>
    e.symbol == symbol && start_date ≤ e.trade_date && e.trade_date ≤ end_date)
  let sel := sel.insertionSort (fun a b => a.trade_date ≤ b.trade_date)
  if sel.isEmpty then none
  else some (sel.map (fun e => (e.trade_date, e.toRow)))

/-- `NSECache.get_cached_date_range`: `MIN`/`MAX` of `trade_date` over the
symbol's rows, `None` when the symbol has no rows. -/
def get_cached_date_range (symbol : String) (t : OhlcTable) :
    Option (Date × Date) :=
  let symbol := strUpper symbol
  match (t.filter (fun e => e.symbol == symbol)).map OhlcEntry.trade_date with
  | [] => none
  | d :: ds => some (ds.foldl (fun p x => (min p.1 x, max p.2 x)) (d, d))

/-- `NSECache.clear_symbol`: delete every `ohlc_data` row of the symbol. -/
def clear_symbol (symbol : String) (t : OhlcTable) : OhlcTable :=
  t.filter (fun e => !(e.symbol == strUpper symbol))

/-! ## The session layer (`nsefeed/session.py`)

`NSESession.get` applies rate limiting and then runs
`while retry_count <= MAX_RETRIES`, attempting the underlying HTTP GET each
time.  What each attempt of the underlying transport does is an input: an
oracle from the attempt index to its outcome.  The loop is written with an
explicit `fuel` argument, kept equal to `MAX_RETRIES + 1 - retry_count`, so
that `fuel = 0` is exactly the loop condition failing. -/

/-- `constants.MAX_RETRIES`. -/
def MAX_RETRIES : Nat := 3

/-- `constants.RETRY_BACKOFF_FACTOR` (1.5). -/
def RETRY_BACKOFF_FACTOR : ℚ := 3 / 2

/-- `constants.INITIAL_RETRY_DELAY` (1.0 second). -/
def INITIAL_RETRY_DELAY : ℚ := 1

/-- Outcome of one attempt of the underlying transport
(`self._session.get(...)` inside the loop): an HTTP response with a status
code and optional `Retry-After` header, a timeout, or another transport
exception. -/
inductive AttemptOutcome where
  | response (status_code : Nat) (retry_after_header : Option ℚ)
  | timeoutExc (msg : String)
  | requestExc (msg : String)
deriving DecidableEq, Repr

/-- `requests`' `response.ok`: status code below 400. -/
def response_ok (status_code : Nat) : Bool := status_code < 400

/-- `NSESession._handle_response_error`: classify a non-ok status code.
401/403 re-establish the session (a side effect on the cookie jar, not
modelled) and raise `NSESessionError`; 429 raises `NSERateLimitError`
carrying `Retry-After` (default 60 when the header is absent); 404 and any
other status raise `NSEConnectionError`. -/
def handle_response_error (status_code : Nat)
    (retry_after_header : Option ℚ) : Err :=
  if status_code == 401 || status_code == 403 then
    .sessionError
  else if status_code == 429 then
    .rateLimit (retry_after_header.getD 60)
  else if status_code == 404 then
    .connError (some 404) (some "Resource not found")
  else
    .connError (some status_code) none

/-- The `last_exception` recorded by the retry loop.  Session errors are
retried without being recorded. -/
inductive LastExc where
  | rateLimited (retry_after : ℚ)
  | timedOut (msg : String)
  | requestFailed (msg : String)
deriving DecidableEq, Repr

/-- `str(last_exception)` as used in the details of the final
`NSEConnectionError`. -/
def LastExc.describe : LastExc → String
  | .rateLimited t => "NSERateLimitError: retry after " ++ toString t
  | .timedOut m => "Timeout: " ++ m
  | .requestFailed m => "RequestException: " ++ m

/-- What one loop iteration records into `last_exception`, if anything. -/
def record_of (o : AttemptOutcome) : Option LastExc :=
  match o with
  | .timeoutExc m => some (.timedOut m)
  | .requestExc m => some (.requestFailed m)
  | .response sc ra =>
    if !response_ok sc && sc == 429 then some (.rateLimited (ra.getD 60))
    else none

deriving instance DecidableEq for Except

/-- Result of the retry loop: the outcome (`.ok k` returns the response of
attempt `k`), the number of attempts performed, and the seconds slept after
each failed-and-retried attempt, in order.  A rate-limit sleep of 0 is
recorded as the amount 0 (the code skips `time.sleep` when
`e.retry_after` is falsy, which sleeps for the same zero duration). -/
structure GetResult where
  outcome : Except Err Nat
  attempts : Nat
  sleeps : List ℚ
deriving DecidableEq, Repr

/-- The retry loop of `NSESession.get`, with
`fuel = MAX_RETRIES + 1 - retry_count` so that running out of fuel is
exactly `retry_count > MAX_RETRIES`:
caught `NSESessionError` retries immediately with no sleep, caught
`NSERateLimitError` sleeps the advertised delay, caught timeout/transport
exceptions sleep `INITIAL_RETRY_DELAY * RETRY_BACKOFF_FACTOR ^ retry_count`
(with the already-incremented count); an `NSEConnectionError` raised by the
status classification propagates at once; exhausting the fuel raises
`NSEConnectionError` wrapping `str(last_exception)` when one was recorded. -/
def get_loop (oracle : Nat → AttemptOutcome) :
    Nat → Nat → Option LastExc → List ℚ → GetResult
  | 0, retry_count, last, sleeps =>
    { outcome := .error (.connError none (last.map LastExc.describe))
      attempts := retry_count
      sleeps := sleeps }
  | fuel + 1, retry_count, last, sleeps =>
    match oracle retry_count with
    | .response sc ra =>
      if response_ok sc then
        { outcome := .ok retry_count, attempts := retry_count + 1
          sleeps := sleeps }
      else
        match handle_response_error sc ra with
        | .sessionError =>
          get_loop oracle fuel (retry_count + 1) last sleeps
        | .rateLimit t =>
          get_loop oracle fuel (retry_count + 1) (some (.rateLimited t))
            (sleeps ++ [t])
        | e =>
          { outcome := .error e, attempts := retry_count + 1, sleeps := sleeps }
    | .timeoutExc m =>
      get_loop oracle fuel (retry_count + 1) (some (.timedOut m))
        (sleeps ++ [INITIAL_RETRY_DELAY * RETRY_BACKOFF_FACTOR ^ (retry_count + 1)])
    | .requestExc m =>
      get_loop oracle fuel (retry_count + 1) (some (.requestFailed m))
        (sleeps ++ [INITIAL_RETRY_DELAY * RETRY_BACKOFF_FACTOR ^ (retry_count + 1)])

/-- `NSESession.get`'s retry phase, from `retry_count = 0`. -/
def session_get (oracle : Nat → AttemptOutcome) : GetResult :=
  get_loop oracle (MAX_RETRIES + 1) 0 none []

/-- An attempt outcome that the loop catches and retries (as opposed to a
success, or an `NSEConnectionError` that propagates immediately). -/
def retryable (o : AttemptOutcome) : Bool :=
  match o with
  | .timeoutExc _ => true
  | .requestExc _ => true
  | .response sc _ =>
    !response_ok sc && (sc == 401 || sc == 403 || sc == 429)

/-- Fold `record_of` over attempts `rc, rc+1, …, rc+fuel-1`, starting from
a previously recorded exception. -/
def record_fold (oracle : Nat → AttemptOutcome) :
    Nat → Nat → Option LastExc → Option LastExc
  | _, 0, last => last
  | rc, fuel + 1, last =>
    record_fold oracle (rc + 1) fuel ((record_of (oracle rc)).elim last some)

/-- The value `last_exception` holds after the loop has run attempts
`0 .. MAX_RETRIES` without returning. -/
def last_recorded (oracle : Nat → AttemptOutcome) : Option LastExc :=
  record_fold oracle 0 (MAX_RETRIES + 1) none

/-! ## The bhav-copy scraper (`nsefeed/scrapers/bhav_copy.py`)

`_download_and_parse` downloads a ZIP via the session and parses the
contained CSV; the download-and-extract step is an oracle input
(`DownloadOutcome`), while the column standardisation `_parse_bhav_copy` is
modelled in full.  `pd.read_csv` already types numeric cells, so raw cell
values arrive as `.num`/`.str`/`.dateV`; `pd.to_numeric(errors="coerce")`
and `pd.to_datetime(errors="coerce")` send any value of the wrong kind to
NaN (`.null`). -/

/-- `constants.BHAV_COPY_OLD_COLUMNS`. -/
def BHAV_COPY_OLD_COLUMNS : List (String × String) :=
  [("SYMBOL", "symbol"), ("SERIES", "series"), ("OPEN", "open"),
   ("HIGH", "high"), ("LOW", "low"), ("CLOSE", "close"), ("LAST", "last"),
   ("PREVCLOSE", "prev_close"), ("TOTTRDQTY", "volume"),
   ("TOTTRDVAL", "value"), ("TIMESTAMP", "date"),
   ("TOTALTRADES", "trades"), ("ISIN", "isin")]

/-- `constants.BHAV_COPY_NEW_COLUMNS` (UDiFF format). -/
def BHAV_COPY_NEW_COLUMNS : List (String × String) :=
  [("TckrSymb", "symbol"), ("SctySrs", "series"), ("OpnPric", "open"),
   ("HghPric", "high"), ("LwPric", "low"), ("ClsPric", "close"),
   ("LastPric", "last"), ("PrvsClsgPric", "prev_close"),
   ("TtlTradgVol", "volume"), ("TtlTrfVal", "value"), ("TradDt", "date"),
   ("TtlNbOfTxsExctd", "trades"), ("ISIN", "isin")]

/-- `constants.PRIMARY_SERIES`. -/
def PRIMARY_SERIES : List String := ["EQ", "BE", "BZ"]

/-- The `standard_cols` list of `_parse_bhav_copy`. -/
def STANDARD_COLS : List String :=
  ["symbol", "series", "open", "high", "low", "close",
   "volume", "value", "trades", "date", "prev_close", "last", "isin"]

/-- The `numeric_cols` list of `_parse_bhav_copy`. -/
def NUMERIC_COLS : List String :=
  ["open", "high", "low", "close", "volume", "value", "trades",
   "prev_close", "last"]

/-- Set a key of a string-to-string dict, overwriting an existing entry
(`rename_map[matching_cols[0]] = new_col`). -/
def assocUpsert (m : List (String × String)) (k v : String) :
    List (String × String) :=
  if m.any (fun p => p.1 == k) then
    m.map (fun p => if p.1 == k then (k, v) else p)
  else m ++ [(k, v)]

/-- Build `rename_map`: for each `(old_col, new_col)` of the column map, the
first DataFrame column matching `old_col` case-insensitively is renamed to
`new_col`. -/
def build_rename_map (column_map : List (String × String))
    (cols : List String) : List (String × String) :=
  column_map.foldl
    (fun acc p =>
      match cols.find? (fun c => strUpper c == strUpper p.1) with
      | some c0 => assocUpsert acc c0 p.2
      | none => acc)
    []

/-- `df.rename(columns=rename_map)`. -/
def rename_columns (rmap : List (String × String)) (df : DF) : DF :=
  { columns := df.columns.map (fun c => (rmap.lookup c).getD c)
    rows := df.rows.map (fun r =>
      r.map (fun p => ((rmap.lookup p.1).getD p.1, p.2))) }

/-- `df[keep]`: restrict to the given columns, in the given order. -/
def select_columns (keep : List String) (df : DF) : DF :=
  { columns := keep
    rows := df.rows.map (fun r => keep.map (fun c => (c, (rowGet r c).getD .null))) }

/-- `pd.to_numeric(col, errors="coerce")` on an already-typed cell. -/
def to_numeric (v : Value) : Value :=
  match v with
  | .num q => .num q
  | _ => .null

/-- `pd.to_datetime(col, errors="coerce")` on an already-typed cell. -/
def to_datetime (v : Value) : Value :=
  match v with
  | .dateV d => .dateV d
  | _ => .null

/-- `.str.strip().str.upper()` — acts on string cells, leaves NaN alone. -/
def clean_text (v : Value) : Value :=
  match v with
  | .str s => .str (strUpper (strTrim s))
  | v => v

/-- Apply a cell transformation to one column, when it exists
(`if col in df.columns: df[col] = f(df[col])`). -/
def map_column (df : DF) (c : String) (f : Value → Value) : DF :=
  if df.columns.contains c then
    { df with rows := df.rows.map (fun r =>
        r.map (fun p => if p.1 == c then (p.1, f p.2) else p)) }
  else df

/-- `BhavCopyScraper._parse_bhav_copy`: pick the format's column map, rename
case-insensitively, keep the standard columns that exist, coerce numerics,
parse the date column, and uppercase/trim symbol and series. -/
def parse_bhav_copy (df : DF) (is_new_format : Bool) : DF :=
  let column_map :=
    if is_new_format then BHAV_COPY_NEW_COLUMNS else BHAV_COPY_OLD_COLUMNS
  let rmap := build_rename_map column_map df.columns
  let df := rename_columns rmap df
  let existing := STANDARD_COLS.filter (fun c => df.columns.contains c)
  let df := select_columns existing df
  let df := NUMERIC_COLS.foldl (fun d c => map_column d c to_numeric) df
  let df := map_column df "date" to_datetime
  let df := map_column df "symbol" clean_text
  let df := map_column df "series" clean_text
  df

/-- `utils.filter_by_series`: keep rows whose series is in the requested
list (default `PRIMARY_SERIES`); identity when there is no series column. -/
def filter_by_series (df : DF) (series : Option (List String)) : DF :=
  let series := series.getD PRIMARY_SERIES
  if df.columns.contains "series" then
    { df with rows := df.rows.filter (fun r =>
        match rowGet r "series" with
        | some (.str s) => series.contains s
        | _ => false) }
  else df

/-- Outcome of downloading one archive URL and extracting its CSV — the
effectful part of `_download_and_parse`: success with the raw frame, an
`NSEConnectionError` from `download_file`, or one of its parse failures. -/
inductive DownloadOutcome where
  | ok (raw : DF)
  | connErr (status_code : Option Nat)
  | badZip
  | noCsv
  | csvParseErr
deriving DecidableEq, Repr

/-- `BhavCopyScraper._download_and_parse`: on a successful download, parse
and standardise; a failed download is `NSEConnectionError`; a bad ZIP,
missing CSV, or CSV parser failure is `NSEParseError`. -/
def download_and_parse (o : DownloadOutcome) (is_new_format : Bool) :
    Except Err DF :=
  match o with
  | .ok raw => .ok (parse_bhav_copy raw is_new_format)
  | .connErr sc => .error (.connError sc none)
  | .badZip => .error .parseError
  | .noCsv => .error .parseError
  | .csvParseErr => .error .parseError

/-- The two archive downloads available for one trading date. -/
structure DayEnv where
  newFmt : DownloadOutcome
  oldFmt : DownloadOutcome

/-- The external world of the scraper: the current date and what each
per-date archive download would yield. -/
structure FetchEnv where
  today : Date
  day : Date → DayEnv

/-- The `NSEDataNotFoundError` raised when both formats fail for a date. -/
def noBhavErr (d : Date) : Err :=
  .dataNotFound s!"No bhav copy available for {d}" none none

/-- The message of the `NSEDataNotFoundError` raised by `fetch_for_symbol`
when no day in the range yielded data. -/
def msgNoData (symbol : String) : String :=
  s!"No data found for {symbol}"

/-- `BhavCopyScraper.fetch_for_date`: reject weekends and future dates
before any download; otherwise try the new format, falling back to the old
format on a connection/parse error or an empty frame; raise
`NSEDataNotFoundError` naming the date when both fail.  The second
component counts attempted archive downloads. -/
def fetch_for_date (env : FetchEnv) (trade_date : Date)
    (series : Option (List String)) : Except Err DF × Nat :=
  if !is_trading_day trade_date then
    (.error (.dataNotFound s!"No trading on {trade_date}" none none), 0)
  else if env.today < trade_date then
    (.error (.dataNotFound s!"Cannot fetch future data for {trade_date}" none none), 0)
  else
    let fallback : Nat → Except Err DF × Nat := fun calls =>
      match download_and_parse (env.day trade_date).oldFmt false with
      | .ok df =>
        if !df.rows.isEmpty then (.ok (filter_by_series df series), calls + 1)
        else (.error (noBhavErr trade_date), calls + 1)
      | .error _ => (.error (noBhavErr trade_date), calls + 1)
    match download_and_parse (env.day trade_date).newFmt true with
    | .ok df =>
      if !df.rows.isEmpty then (.ok (filter_by_series df series), 1)
      else fallback 1
    | .error _ => fallback 1

/-! ## The per-symbol walk (`fetch_for_symbol`) and bulk walk (`fetch_bulk`)

The walk is parameterised over the per-day fetch (`self.fetch_for_date` at
the call site) so that its handling of per-day failures can be stated for
every possible per-day behaviour. -/

/-- `daily_df[daily_df["symbol"] == symbol]`. -/
def symbol_rows (df : DF) (symbol : String) : List Row :=
  df.rows.filter (fun r => rowGet r "symbol" == some (.str symbol))

/-- What one successful day adds to `all_data`: the symbol's rows, with the
walk date added as a `date` column when the frame has none; nothing when
the symbol has no rows that day. -/
def day_contribution (df : DF) (symbol : String) (d : Date) : List Row :=
  let sd := symbol_rows df symbol
  if sd.isEmpty then []
  else if df.columns.contains "date" then sd
  else sd.map (fun r => rowSet r "date" (.dateV d))

/-- The per-day exceptions the walk catches (`except NSEDataNotFoundError`
and `except NSEConnectionError`); anything else propagates. -/
def caught_by_walk (e : Err) : Bool :=
  match e with
  | .dataNotFound _ _ _ => true
  | .connError _ _ => true
  | _ => false

/-- State accumulated by the day-by-day walk: the collected rows, the dates
recorded in `errors`, the number of attempted downloads, and a pending
uncaught exception (which aborts the walk). -/
structure WalkAcc where
  all_data : List Row
  errors : List Date
  calls : Nat
  aborted : Option Err
deriving DecidableEq, Repr

/-- The `while current_date <= end_date` walk of `fetch_for_symbol`:
skip non-trading days, fetch each trading day, collect the symbol's rows,
swallow and record per-day `NSEDataNotFoundError`/`NSEConnectionError`,
and let any other exception abort the walk. -/
def day_walk (fetchDay : Date → Except Err DF × Nat) (symbol : String) :
    List Date → WalkAcc
  | [] => ⟨[], [], 0, none⟩
  | d :: rest =>
    if is_trading_day d then
      match fetchDay d with
      | (.ok df, n) =>
        let acc := day_walk fetchDay symbol rest
        ⟨day_contribution df symbol d ++ acc.all_data, acc.errors,
         n + acc.calls, acc.aborted⟩
      | (.error e, n) =>
        if caught_by_walk e then
          let acc := day_walk fetchDay symbol rest
          ⟨acc.all_data, d :: acc.errors, n + acc.calls, acc.aborted⟩
        else ⟨[], [], n, some e⟩
    else day_walk fetchDay symbol rest

/-- The date of a standardised row (`df.set_index("date")`); rows whose
date failed to parse are indexed 0 here (pandas would index them NaT). -/
def row_date (r : Row) : Date :=
  match rowGet r "date" with
  | some (.dateV d) => d
  | _ => 0

/-- `utils.standardize_dataframe` as used on the walk's accumulated rows:
lowercase the column names, coerce the OHLCV columns to numeric, set the
symbol column to the uppercased symbol, and index by date, ascending. -/
def standardize_dataframe (rows : List Row) (symbol : String) : IndexedDF :=
  let rows := rows.map (fun r => r.map (fun p => (strLower p.1, p.2)))
  let rows := rows.map (fun r => r.map (fun p =>
    if ["open", "high", "low", "close", "volume", "value", "trades"].contains p.1
    then (p.1, to_numeric p.2) else p))
  let rows := rows.map (fun r => rowSet r "symbol" (.str (strUpper symbol)))
  (rows.map (fun r => (row_date r, r))).insertionSort (fun a b => a.1 ≤ b.1)

/-- The local cache as the walk sees it: the table plus whether the SQLite
layer is currently failing (a `sqlite3.Error` inside `_cursor`, which rolls
back and raises `NSECacheError`). -/
structure CacheState where
  ohlc : OhlcTable
  writeFails : Bool

/-- Result of `fetch_for_symbol`: the returned frame or raised error, the
cache table afterwards, and the number of attempted downloads. -/
structure SymbolFetchResult where
  result : Except Err IndexedDF
  cache : OhlcTable
  networkCalls : Nat
deriving DecidableEq, Repr

/-- The body of `fetch_for_symbol` after date validation: the cache check
(`get_ohlc` nonempty and `get_cached_date_range` covering `[s, e]` returns
the cached slice with no download), then the day walk, the no-data raise
naming symbol and range, standardisation, and the unguarded `set_ohlc`
write-back (whose `NSECacheError` propagates). -/
def fetch_for_symbol_core (fetchDay : Date → Except Err DF × Nat)
    (cache : CacheState) (use_cache : Bool) (symbol : String)
    (s e : Date) : SymbolFetchResult :=
  let hit : Option IndexedDF :=
    if use_cache then
      match get_ohlc symbol s e cache.ohlc with
      | some cached_df =>
        if !cached_df.isEmpty then
          match get_cached_date_range symbol cache.ohlc with
          | some (cs, ce) => if cs ≤ s && e ≤ ce then some cached_df else none
          | none => none
        else none
      | none => none
    else none
  match hit with
  | some cached_df => ⟨.ok cached_df, cache.ohlc, 0⟩
  | none =>
    let acc := day_walk fetchDay symbol (date_range s e)
    match acc.aborted with
    | some err => ⟨.error err, cache.ohlc, acc.calls⟩
    | none =>
      if acc.all_data.isEmpty then
        ⟨.error (.dataNotFound (msgNoData symbol) (some symbol)
            (some (s, e))), cache.ohlc, acc.calls⟩
      else
        let result_df := standardize_dataframe acc.all_data symbol
        if use_cache && !result_df.isEmpty then
          if cache.writeFails then ⟨.error .cacheError, cache.ohlc, acc.calls⟩
          else ⟨.ok result_df, set_ohlc symbol result_df cache.ohlc, acc.calls⟩
        else ⟨.ok result_df, cache.ohlc, acc.calls⟩

/-- `BhavCopyScraper.fetch_for_symbol`: normalise the symbol, validate the
date range, and run the core. -/
def fetch_for_symbol (fetchDay : Date → Except Err DF × Nat)
    (cache : CacheState) (use_cache : Bool) (symbol : String)
    (start_date end_date today : Date) : SymbolFetchResult :=
  let symbol := strUpper (strTrim symbol)
  match validate_date_range start_date end_date today false with
  | .error err => ⟨.error err, cache.ohlc, 0⟩
  | .ok (s, e) => fetch_for_symbol_core fetchDay cache use_cache symbol s e

/-- `fetch_for_symbol` with the per-day fetch instantiated to the real
`fetch_for_date`. -/
def fetch_for_symbol_full (env : FetchEnv) (cache : CacheState)
    (use_cache : Bool) (symbol : String) (start_date end_date : Date)
    (series : Option (List String)) : SymbolFetchResult :=
  fetch_for_symbol (fun d => fetch_for_date env d series) cache use_cache
    symbol start_date end_date env.today

/-- Python dict-comprehension key order: first occurrence of each symbol. -/
def dedup_first : List String → List String
  | [] => []
  | s :: rest => s :: (dedup_first rest).filter (fun x => x != s)

/-- The day walk of `fetch_bulk`: collect each fetched day's whole frame,
swallowing per-day `NSEDataNotFoundError`/`NSEConnectionError`; returns
the successful days in order, the download count, and a pending uncaught
exception. -/
def bulk_walk (fetchDay : Date → Except Err DF × Nat) :
    List Date → List (Date × DF) × Nat × Option Err
  | [] => ([], 0, none)
  | d :: rest =>
    if is_trading_day d then
      match fetchDay d with
      | (.ok df, n) =>
        let w := bulk_walk fetchDay rest
        ((d, df) :: w.1, n + w.2.1, w.2.2)
      | (.error e, n) =>
        if caught_by_walk e then
          let w := bulk_walk fetchDay rest
          (w.1, n + w.2.1, w.2.2)
        else ([], n, some e)
    else bulk_walk fetchDay rest

/-- The combine phase of `fetch_bulk`: per symbol, concatenate its rows over
the successful days; a symbol with no rows gets an empty frame; otherwise
standardise and (when caching) write back with the unguarded `set_ohlc`,
whose `NSECacheError` propagates. -/
def bulk_combine (okDays : List (Date × DF)) (use_cache writeFails : Bool) :
    List String → OhlcTable →
    Except Err (List (String × IndexedDF)) × OhlcTable
  | [], t => (.ok [], t)
  | sym :: rest, t =>
    let rows := okDays.foldr (fun p acc => day_contribution p.2 sym p.1 ++ acc) []
    if rows.isEmpty then
      match bulk_combine okDays use_cache writeFails rest t with
      | (.ok res, t2) => (.ok ((sym, ([] : IndexedDF)) :: res), t2)
      | (.error e2, t2) => (.error e2, t2)
    else
      let std := standardize_dataframe rows sym
      if use_cache then
        if writeFails then (.error .cacheError, t)
        else
          match bulk_combine okDays use_cache writeFails rest (set_ohlc sym std t) with
          | (.ok res, t2) => (.ok ((sym, std) :: res), t2)
          | (.error e2, t2) => (.error e2, t2)
      else
        match bulk_combine okDays use_cache writeFails rest t with
        | (.ok res, t2) => (.ok ((sym, std) :: res), t2)
        | (.error e2, t2) => (.error e2, t2)

/-- Result of `fetch_bulk`: the symbol-to-frame map (in first-occurrence
order) or raised error, the cache table afterwards, and the download count. -/
structure BulkFetchResult where
  result : Except Err (List (String × IndexedDF))
  cache : OhlcTable
  networkCalls : Nat
deriving DecidableEq, Repr

/-- The body of `fetch_bulk` after date validation. -/
def fetch_bulk_core (fetchDay : Date → Except Err DF × Nat)
    (cache : CacheState) (use_cache : Bool) (symbols : List String)
    (s e : Date) : BulkFetchResult :=
  let w := bulk_walk fetchDay (date_range s e)
  match w.2.2 with
  | some err => ⟨.error err, cache.ohlc, w.2.1⟩
  | none =>
    match bulk_combine w.1 use_cache cache.writeFails symbols cache.ohlc with
    | (.ok res, t2) => ⟨.ok res, t2, w.2.1⟩
    | (.error e2, t2) => ⟨.error e2, t2, w.2.1⟩

/-- `BhavCopyScraper.fetch_bulk`: normalise the symbols, validate the date
range, and run the core. -/
def fetch_bulk (fetchDay : Date → Except Err DF × Nat)
    (cache : CacheState) (use_cache : Bool) (symbols : List String)
    (start_date end_date today : Date) : BulkFetchResult :=
  let symbols := dedup_first (symbols.map (fun x => strUpper (strTrim x)))
  match validate_date_range start_date end_date today false with
  | .error err => ⟨.error err, cache.ohlc, 0⟩
  | .ok (s, e) => fetch_bulk_core fetchDay cache use_cache symbols s e

/-! ## Concrete inputs used by the witnesses and counterexamples

Day 1831 of the epoch is Friday 1995-01-06; 1832/1833 are the following
weekend and 1834 the following Monday. -/

/-- A raw old-format bhav-copy frame with one row. -/
def rawOldW : DF :=
  { columns := ["SYMBOL", "SERIES", "CLOSE", "TIMESTAMP"]
    rows := [[("SYMBOL", .str " x "), ("SERIES", .str "eq"),
              ("CLOSE", .num 10), ("TIMESTAMP", .dateV 1831)]] }

/-- A world where every new-format download 404s and every old-format
download succeeds with `rawOldW`. -/
def envW : FetchEnv :=
  { today := 12000
    day := fun _ => { newFmt := .connErr (some 404), oldFmt := .ok rawOldW } }

/-- A per-day fetch that finds one row of symbol `X` on day 1834 and
raises `NSEDataNotFoundError` on every other day. -/
def fdW : Date → Except Err DF × Nat := fun d =>
  if d == 1834 then
    (.ok { columns := ["symbol", "close"]
           rows := [[("symbol", .str "X"), ("close", .num 5)]] }, 1)
  else (.error (.dataNotFound "holiday" none none), 1)

/-- A per-day fetch that always raises `NSEDataNotFoundError`. -/
def fdNone : Date → Except Err DF × Nat :=
  fun _ => (.error (.dataNotFound "holiday" none none), 1)

/-- An `ohlc_data` row for symbol `X` with only a close price. -/
def entryW (d : Date) (c : ℚ) : OhlcEntry :=
  { symbol := "X", trade_date := d, open_ := .null, high := .null,
    low := .null, close := .num c, volume := .null, value := .null,
    trades := .null }

/-! ## C6 — weekends and future dates are rejected before any network call -/

/-- C6: for every date that is a weekend day or strictly after today,
`fetch_for_date` raises `DataNotFoundError` (with the weekend message when
the date is a weekend, the future-date message otherwise) and performs
zero archive downloads — no request reaches the session layer. -/
theorem fetch_for_date_rejects_nontrading_and_future (env : FetchEnv)
    (d : Date) (series : Option (List String))
    (h : is_trading_day d = false ∨ env.today < d) :
    fetch_for_date env d series =
      (.error (.dataNotFound
        (if is_trading_day d then s!"Cannot fetch future data for {d}"
         else s!"No trading on {d}") none none), 0) := by
  by_cases ht : is_trading_day d
  · have hf : env.today < d := by
      rcases h with h | h
      · simp [ht] at h
      · exact h
    simp [fetch_for_date, ht, hf]
  · simp [fetch_for_date, ht, Bool.not_eq_true _ ▸ ht]

/-- Witness for C6 at Saturday 1995-01-07 (day 1832). -/
theorem fetch_for_date_rejects_witness :
    (is_trading_day 1832 = false ∨ envW.today < 1832) ∧
    fetch_for_date envW 1832 none =
      (.error (.dataNotFound
        (if is_trading_day 1832 then s!"Cannot fetch future data for {(1832 : Date)}"
         else s!"No trading on {(1832 : Date)}") none none), 0) :=
  ⟨Or.inl (by decide),
   fetch_for_date_rejects_nontrading_and_future envW 1832 none (Or.inl (by decide))⟩

/-! ## C7 — 429 handling: `Retry-After` is carried and slept -/

/-- C7: a 429 response makes the classifier raise `RateLimitError`
carrying the `Retry-After` delay (60 when the header is absent), and the
retry loop's next iteration is entered after sleeping exactly that
advertised delay. -/
theorem rate_limit_carries_and_sleeps_retry_after :
    (∀ ra : Option ℚ, handle_response_error 429 ra = .rateLimit (ra.getD 60)) ∧
    (∀ (oracle : Nat → AttemptOutcome) (fuel rc : Nat)
        (last : Option LastExc) (sleeps : List ℚ) (ra : Option ℚ),
      oracle rc = .response 429 ra →
      get_loop oracle (fuel + 1) rc last sleeps =
        get_loop oracle fuel (rc + 1) (some (.rateLimited (ra.getD 60)))
          (sleeps ++ [ra.getD 60])) := by
  constructor
  · intro ra
    rfl
  · intro oracle fuel rc last sleeps ra h
    simp [get_loop, h, response_ok, handle_response_error]

/-- Witness for C7: a transport that returns 429 with `Retry-After: 2`
sleeps exactly 2 seconds before attempt 1. -/
theorem rate_limit_retry_after_witness :
    ((fun _ => AttemptOutcome.response 429 (some 2)) 0 =
      AttemptOutcome.response 429 (some 2)) ∧
    get_loop (fun _ => AttemptOutcome.response 429 (some 2)) 4 0 none [] =
      get_loop (fun _ => AttemptOutcome.response 429 (some 2)) 3 1
        (some (.rateLimited 2)) [2] :=
  ⟨rfl,
   rate_limit_carries_and_sleeps_retry_after.2
     (fun _ => AttemptOutcome.response 429 (some 2)) 3 0 none [] (some 2) rfl⟩

/-! ## C10 — cache operations are case-insensitive in the symbol -/

/-- C10: `set_ohlc`, `get_ohlc`, `get_cached_date_range` and `clear_symbol`
all uppercase their symbol argument before touching storage, so any two
symbol strings with the same uppercasing denote the same cached series. -/
theorem cache_symbol_case_insensitive (s1 s2 : String)
    (h : strUpper s1 = strUpper s2) (df : IndexedDF) (t : OhlcTable)
    (a b : Date) :
    set_ohlc s1 df t = set_ohlc s2 df t ∧
    get_ohlc s1 a b t = get_ohlc s2 a b t ∧
    get_cached_date_range s1 t = get_cached_date_range s2 t ∧
    clear_symbol s1 t = clear_symbol s2 t := by
  unfold set_ohlc get_ohlc get_cached_date_range clear_symbol
  rw [h]
  exact ⟨rfl, rfl, rfl, rfl⟩

/-- Witness for C10: rows stored under `abc` are visible to `get_ohlc`
under `ABC` and cleared by `clear_symbol` under `Abc`. -/
theorem cache_symbol_case_insensitive_witness :
    (strUpper "abc" = strUpper "ABC" ∧ strUpper "abc" = strUpper "Abc") ∧
    get_ohlc "abc" 1830 1840 (set_ohlc "abc" [(1831, [("close", .num 10)])] []) =
      get_ohlc "ABC" 1830 1840 (set_ohlc "abc" [(1831, [("close", .num 10)])] []) ∧
    clear_symbol "abc" (set_ohlc "abc" [(1831, [("close", .num 10)])] []) =
      clear_symbol "Abc" (set_ohlc "abc" [(1831, [("close", .num 10)])] []) :=
  ⟨⟨by decide, by decide⟩,
   (cache_symbol_case_insensitive "abc" "ABC" (by decide)
     [(1831, [("close", .num 10)])]
     (set_ohlc "abc" [(1831, [("close", .num 10)])] []) 1830 1840).2.1,
   (cache_symbol_case_insensitive "abc" "Abc" (by decide)
     [(1831, [("close", .num 10)])]
     (set_ohlc "abc" [(1831, [("close", .num 10)])] []) 1830 1840).2.2.2⟩

/-! ## C8 — `set_ohlc` is an upsert preserving key uniqueness -/

/-- The keys of the `ohlc_data` table, whose uniqueness is the table's
`UNIQUE(symbol, trade_date)` constraint. -/
def ohlcKeys (t : OhlcTable) : List (String × Date) := t.map OhlcEntry.key

/-- An upserted key occurs exactly once afterwards. -/
theorem insertOrReplace_countP (t : OhlcTable) (e : OhlcEntry) :
    (insertOrReplace t e).countP
      (fun x => x.symbol == e.symbol && x.trade_date == e.trade_date) = 1 := by
  unfold insertOrReplace
  rw [List.countP_append]
  have h0 : (t.filter
      (fun x => !(x.symbol == e.symbol && x.trade_date == e.trade_date))).countP
      (fun x => x.symbol == e.symbol && x.trade_date == e.trade_date) = 0 := by
    rw [List.countP_eq_zero]
    intro a ha
    have hp := List.of_mem_filter ha
    simp at hp ⊢
    tauto
  rw [h0]
  simp [List.countP_cons]

/-- Upserting one row preserves key uniqueness. -/
theorem insertOrReplace_keys_nodup (t : OhlcTable) (e : OhlcEntry)
    (h : (ohlcKeys t).Nodup) : (ohlcKeys (insertOrReplace t e)).Nodup := by
  unfold ohlcKeys insertOrReplace
  rw [List.map_append, List.nodup_append]
  refine ⟨?_, by simp, ?_⟩
  · exact ((List.filter_sublist t).map OhlcEntry.key).nodup h
  · intro k hk hk2
    simp only [List.map_cons, List.map_nil, List.mem_singleton] at hk2
    subst hk2
    rcases List.mem_map.mp hk with ⟨a, ha, hkey⟩
    have hp := List.of_mem_filter ha
    have h1 : a.symbol = e.symbol := congrArg Prod.fst hkey
    have h2 : a.trade_date = e.trade_date := congrArg Prod.snd hkey
    simp [h1, h2] at hp

/-- Any `set_ohlc` call preserves key uniqueness. -/
theorem set_ohlc_keys_nodup (s : String) (df : IndexedDF) (t : OhlcTable)
    (h : (ohlcKeys t).Nodup) : (ohlcKeys (set_ohlc s df t)).Nodup := by
  unfold set_ohlc
  split
  · exact h
  · suffices H : ∀ (l : IndexedDF) (t0 : OhlcTable), (ohlcKeys t0).Nodup →
        (ohlcKeys (l.foldl (fun acc dr =>
          insertOrReplace acc (entryOfRow (strUpper s) dr.1 dr.2)) t0)).Nodup by
      exact H df t h
    intro l
    induction l with
    | nil => intro t0 h0; exact h0
    | cons hd tl ih =>
      intro t0 h0
      exact ih _ (insertOrReplace_keys_nodup t0 _ h0)

/-- Caching the same (symbol, date) twice leaves exactly one row for that
key, and it holds the values of the second write. -/
theorem set_ohlc_twice_single (t : OhlcTable) (s : String) (d : Date)
    (r1 r2 : Row) :
    (set_ohlc s [(d, r2)] (set_ohlc s [(d, r1)] t)).countP
      (fun x => x.symbol == strUpper s && x.trade_date == d) = 1 ∧
    ∀ x ∈ set_ohlc s [(d, r2)] (set_ohlc s [(d, r1)] t),
      x.symbol = strUpper s → x.trade_date = d →
      x = entryOfRow (strUpper s) d r2 := by
  have hred : ∀ (r : Row) (t0 : OhlcTable),
      set_ohlc s [(d, r)] t0 =
        insertOrReplace t0 (entryOfRow (strUpper s) d r) := by
    intro r t0; rfl
  rw [hred, hred]
  constructor
  · have hc := insertOrReplace_countP
      (insertOrReplace t (entryOfRow (strUpper s) d r1))
      (entryOfRow (strUpper s) d r2)
    simpa [entryOfRow] using hc
  · intro x hx hs hd
    unfold insertOrReplace at hx
    rcases List.mem_append.mp hx with hx | hx
    · have hp := List.of_mem_filter hx
      simp [hs, hd, entryOfRow] at hp
    · simpa using hx

/-- C8: caching rows for the same (symbol, trade_date) key twice — even
with different close values — leaves exactly one row for that key, holding
the values from the latest write, and every `set_ohlc` call preserves the
uniqueness of (symbol, trade_date). -/
theorem set_ohlc_upsert_unique (t : OhlcTable) (s : String) (d : Date)
    (r1 r2 : Row) (df : IndexedDF) (h : (ohlcKeys t).Nodup) :
    ((set_ohlc s [(d, r2)] (set_ohlc s [(d, r1)] t)).countP
      (fun x => x.symbol == strUpper s && x.trade_date == d) = 1 ∧
     ∀ x ∈ set_ohlc s [(d, r2)] (set_ohlc s [(d, r1)] t),
       x.symbol = strUpper s → x.trade_date = d →
       x = entryOfRow (strUpper s) d r2) ∧
    (ohlcKeys (set_ohlc s df t)).Nodup :=
  ⟨set_ohlc_twice_single t s d r1 r2, set_ohlc_keys_nodup s df t h⟩

/-- Witness for C8: caching close 10 and then close 20 for (X, 1831) over a
one-row table. -/
theorem set_ohlc_upsert_unique_witness :
    (ohlcKeys [entryW 1830 1]).Nodup ∧
    (((set_ohlc "x" [(1831, [("close", .num 20)])]
        (set_ohlc "x" [(1831, [("close", .num 10)])] [entryW 1830 1])).countP
        (fun x => x.symbol == strUpper "x" && x.trade_date == 1831) = 1 ∧
      ∀ x ∈ set_ohlc "x" [(1831, [("close", .num 20)])]
          (set_ohlc "x" [(1831, [("close", .num 10)])] [entryW 1830 1]),
        x.symbol = strUpper "x" → x.trade_date = 1831 →
        x = entryOfRow (strUpper "x") 1831 [("close", .num 20)]) ∧
    (ohlcKeys (set_ohlc "x" [(1831, [("close", .num 10)])]
        [entryW 1830 1])).Nodup) :=
  ⟨by decide,
   set_ohlc_upsert_unique [entryW 1830 1] "x" 1831
     [("close", .num 10)] [("close", .num 20)]
     [(1831, [("close", .num 10)])] (by decide)⟩

/-! ## C3 — the retry loop bound and the exhaustion error -/

/-- The loop started at `retry_count = rc` with `fuel` remaining performs at
most `rc + fuel` attempts in total. -/
theorem get_loop_attempts_le (oracle : Nat → AttemptOutcome) :
    ∀ (fuel rc : Nat) (last : Option LastExc) (sleeps : List ℚ),
    (get_loop oracle fuel rc last sleeps).attempts ≤ rc + fuel := by
  intro fuel
  induction fuel with
  | zero => intro rc last sleeps; simp [get_loop]
  | succ n ih =>
    intro rc last sleeps
    simp only [get_loop]
    cases o : oracle rc with
    | response sc ra =>
      by_cases hok : response_ok sc
      · simp [hok]
      · simp only [hok, Bool.false_eq_true, if_false]
        split
        · exact le_trans (ih _ _ _) (by omega)
        · exact le_trans (ih _ _ _) (by omega)
        · simp
    | timeoutExc m => exact le_trans (ih _ _ _) (by omega)
    | requestExc m => exact le_trans (ih _ _ _) (by omega)

/-- When every remaining attempt fails with a caught-and-retried error, the
loop exhausts its budget and raises the final `NSEConnectionError` wrapping
whatever `last_exception` recorded. -/
theorem get_loop_exhaust (oracle : Nat → AttemptOutcome) :
    ∀ (fuel rc : Nat) (last : Option LastExc) (sleeps : List ℚ),
    (∀ k, rc ≤ k → k < rc + fuel → retryable (oracle k) = true) →
    (get_loop oracle fuel rc last sleeps).outcome =
      .error (.connError none
        ((record_fold oracle rc fuel last).map LastExc.describe)) ∧
    (get_loop oracle fuel rc last sleeps).attempts = rc + fuel := by
  intro fuel
  induction fuel with
  | zero => intro rc last sleeps _; simp [get_loop, record_fold]
  | succ n ih =>
    intro rc last sleeps h
    have hrc : retryable (oracle rc) = true := h rc (le_refl rc) (by omega)
    have hnext : ∀ k, rc + 1 ≤ k → k < (rc + 1) + n →
        retryable (oracle k) = true :=
      fun k h1 h2 => h k (by omega) (by omega)
    cases o : oracle rc with
    | response sc ra =>
      rw [o] at hrc
      simp [retryable] at hrc
      obtain ⟨hnok, hcode⟩ := hrc
      simp only [get_loop, record_fold, o, hnok, Bool.false_eq_true, if_false]
      rcases hcode with (h4 | h4) | h4
      · subst h4
        have hh : handle_response_error 401 ra = .sessionError := rfl
        have hr : (record_of (AttemptOutcome.response 401 ra)).elim last some =
            last := rfl
        rw [hh, hr]
        exact ⟨(ih _ _ _ hnext).1, by rw [(ih _ _ _ hnext).2]; omega⟩
      · subst h4
        have hh : handle_response_error 403 ra = .sessionError := rfl
        have hr : (record_of (AttemptOutcome.response 403 ra)).elim last some =
            last := rfl
        rw [hh, hr]
        exact ⟨(ih _ _ _ hnext).1, by rw [(ih _ _ _ hnext).2]; omega⟩
      · subst h4
        have hh : handle_response_error 429 ra = .rateLimit (ra.getD 60) := rfl
        have hr : (record_of (AttemptOutcome.response 429 ra)).elim last some =
            some (.rateLimited (ra.getD 60)) := rfl
        rw [hh, hr]
        exact ⟨(ih _ _ _ hnext).1, by rw [(ih _ _ _ hnext).2]; omega⟩
    | timeoutExc m =>
      simp only [get_loop, o, record_fold]
      have hr : (record_of (AttemptOutcome.timeoutExc m)).elim last some =
          some (.timedOut m) := rfl
      rw [hr]
      exact ⟨(ih _ _ _ hnext).1, by rw [(ih _ _ _ hnext).2]; omega⟩
    | requestExc m =>
      simp only [get_loop, o, record_fold]
      have hr : (record_of (AttemptOutcome.requestExc m)).elim last some =
          some (.requestFailed m) := rfl
      rw [hr]
      exact ⟨(ih _ _ _ hnext).1, by rw [(ih _ _ _ hnext).2]; omega⟩

/-- C3 (amended): the retry loop performs at most `MAX_RETRIES + 1` attempts
in total (an initial attempt plus up to `MAX_RETRIES` retries — not
`MAX_RETRIES` attempts as claimed), and when retryable failures persist
through every attempt, the loop raises `ConnectionError` wrapping the last
recorded underlying failure. -/
theorem session_get_bounded_and_wraps (oracle : Nat → AttemptOutcome) :
    (session_get oracle).attempts ≤ MAX_RETRIES + 1 ∧
    ((∀ k, k ≤ MAX_RETRIES → retryable (oracle k) = true) →
      (session_get oracle).outcome =
        .error (.connError none
          ((last_recorded oracle).map LastExc.describe)) ∧
      (session_get oracle).attempts = MAX_RETRIES + 1) := by
  constructor
  · have h := get_loop_attempts_le oracle (MAX_RETRIES + 1) 0 none []
    simpa [session_get] using h
  · intro h
    have h2 := get_loop_exhaust oracle (MAX_RETRIES + 1) 0 none []
      (fun k h1 hlt => h k (by omega))
    simpa [session_get, last_recorded] using h2

/-- Counterexample for C3 as stated: a persistently timing-out transport is
attempted `MAX_RETRIES + 1 = 4` times, strictly more than the claimed bound
of `MAX_RETRIES` attempts in total. -/
theorem session_get_max_retries_counterexample :
    (session_get (fun _ => AttemptOutcome.timeoutExc "timed out")).attempts =
      MAX_RETRIES + 1 ∧
    MAX_RETRIES <
      (session_get (fun _ => AttemptOutcome.timeoutExc "timed out")).attempts := by
  decide

/-- Witness for C3 (amended) on the persistently timing-out transport. -/
theorem session_get_bounded_witness :
    (∀ k, k ≤ MAX_RETRIES →
      retryable ((fun _ => AttemptOutcome.timeoutExc "t") k) = true) ∧
    ((session_get (fun _ => AttemptOutcome.timeoutExc "t")).attempts ≤
        MAX_RETRIES + 1 ∧
      ((session_get (fun _ => AttemptOutcome.timeoutExc "t")).outcome =
          .error (.connError none
            ((last_recorded (fun _ => AttemptOutcome.timeoutExc "t")).map
              LastExc.describe)) ∧
        (session_get (fun _ => AttemptOutcome.timeoutExc "t")).attempts =
          MAX_RETRIES + 1)) :=
  ⟨fun _ _ => rfl,
   ⟨(session_get_bounded_and_wraps _).1,
    (session_get_bounded_and_wraps _).2 (fun _ _ => rfl)⟩⟩

/-! ## C5 — new-format-first with old-format fallback -/

/-- A format attempt that yields no data: the download or parse failed, or
the parsed frame is empty (the code treats an empty frame like a failure
and falls through). -/
def format_failed (o : DownloadOutcome) (is_new : Bool) : Bool :=
  match o with
  | .ok raw => (parse_bhav_copy raw is_new).rows.isEmpty
  | _ => true

/-- Transforming one column does not change the column list. -/
theorem map_column_columns (df : DF) (c : String) (f : Value → Value) :
    (map_column df c f).columns = df.columns := by
  unfold map_column
  split <;> rfl

/-- Numeric coercion over a list of columns does not change the column
list. -/
theorem foldl_map_column_columns (cols : List String) (df : DF)
    (f : Value → Value) :
    (cols.foldl (fun d c => map_column d c f) df).columns = df.columns := by
  induction cols generalizing df with
  | nil => rfl
  | cons hd tl ih => simp [List.foldl_cons, ih, map_column_columns]

/-- `_parse_bhav_copy` yields only canonical (standard) column names. -/
theorem parse_bhav_copy_columns_sub (df : DF) (b : Bool) :
    ∀ c ∈ (parse_bhav_copy df b).columns, c ∈ STANDARD_COLS := by
  unfold parse_bhav_copy
  intro c hc
  simp only [map_column_columns, foldl_map_column_columns,
    select_columns] at hc
  exact List.mem_of_mem_filter hc

/-- Series filtering does not change the column list. -/
theorem filter_by_series_columns (df : DF) (series : Option (List String)) :
    (filter_by_series df series).columns = df.columns := by
  simp only [filter_by_series]
  split <;> rfl

/-- C5: on a valid trading date, `fetch_for_date` attempts the new-format
URL first and returns its parse when nonempty; on any connection/parse
failure (or empty parse) of the new format it does not propagate but falls
through to the old format with its own column map, returning the
old-format-parsed rows — whose column names are all canonical — when that
succeeds; only when both formats fail does it raise `DataNotFoundError`
naming the date. -/
theorem fetch_for_date_format_fallback (env : FetchEnv) (d : Date)
    (series : Option (List String))
    (ht : is_trading_day d = true) (hd : d ≤ env.today) :
    (∀ raw, (env.day d).newFmt = .ok raw →
      (parse_bhav_copy raw true).rows ≠ [] →
      fetch_for_date env d series =
        (.ok (filter_by_series (parse_bhav_copy raw true) series), 1)) ∧
    (∀ raw, format_failed (env.day d).newFmt true = true →
      (env.day d).oldFmt = .ok raw →
      (parse_bhav_copy raw false).rows ≠ [] →
      fetch_for_date env d series =
        (.ok (filter_by_series (parse_bhav_copy raw false) series), 2) ∧
      ∀ c ∈ (filter_by_series (parse_bhav_copy raw false) series).columns,
        c ∈ STANDARD_COLS) ∧
    (format_failed (env.day d).newFmt true = true →
     format_failed (env.day d).oldFmt false = true →
      fetch_for_date env d series = (.error (noBhavErr d), 2)) := by
  have h1 : (!is_trading_day d) = false := by rw [ht]; rfl
  have h2 : ¬ (env.today < d) := not_lt.mpr hd
  refine ⟨?_, ?_, ?_⟩
  · intro raw hnew hne
    have hE : (parse_bhav_copy raw true).rows.isEmpty = false := by
      cases hE : (parse_bhav_copy raw true).rows.isEmpty
      · rfl
      · exact absurd (List.isEmpty_iff.mp hE) hne
    simp [fetch_for_date, h1, h2, hnew, download_and_parse, hE]
  · intro raw hnewf hold hne
    have hE : (parse_bhav_copy raw false).rows.isEmpty = false := by
      cases hE : (parse_bhav_copy raw false).rows.isEmpty
      · rfl
      · exact absurd (List.isEmpty_iff.mp hE) hne
    constructor
    · cases hn : (env.day d).newFmt with
      | ok rawn =>
        rw [hn] at hnewf
        simp only [format_failed] at hnewf
        simp [fetch_for_date, h1, h2, hn, hold, download_and_parse, hnewf, hE]
      | connErr sc =>
        simp [fetch_for_date, h1, h2, hn, hold, download_and_parse, hE]
      | badZip =>
        simp [fetch_for_date, h1, h2, hn, hold, download_and_parse, hE]
      | noCsv =>
        simp [fetch_for_date, h1, h2, hn, hold, download_and_parse, hE]
      | csvParseErr =>
        simp [fetch_for_date, h1, h2, hn, hold, download_and_parse, hE]
    · intro c hc
      rw [filter_by_series_columns] at hc
      exact parse_bhav_copy_columns_sub raw false c hc
  · intro hnewf holdf
    cases hn : (env.day d).newFmt with
    | ok rawn =>
      rw [hn] at hnewf
      simp only [format_failed] at hnewf
      cases ho : (env.day d).oldFmt with
      | ok rawo =>
        rw [ho] at holdf
        simp only [format_failed] at holdf
        simp [fetch_for_date, h1, h2, hn, ho, download_and_parse, hnewf, holdf]
      | connErr sc =>
        simp [fetch_for_date, h1, h2, hn, ho, download_and_parse, hnewf]
      | badZip => simp [fetch_for_date, h1, h2, hn, ho, download_and_parse, hnewf]
      | noCsv => simp [fetch_for_date, h1, h2, hn, ho, download_and_parse, hnewf]
      | csvParseErr =>
        simp [fetch_for_date, h1, h2, hn, ho, download_and_parse, hnewf]
    | connErr sc =>
      cases ho : (env.day d).oldFmt with
      | ok rawo =>
        rw [ho] at holdf
        simp only [format_failed] at holdf
        simp [fetch_for_date, h1, h2, hn, ho, download_and_parse, holdf]
      | connErr sc2 => simp [fetch_for_date, h1, h2, hn, ho, download_and_parse]
      | badZip => simp [fetch_for_date, h1, h2, hn, ho, download_and_parse]
      | noCsv => simp [fetch_for_date, h1, h2, hn, ho, download_and_parse]
      | csvParseErr => simp [fetch_for_date, h1, h2, hn, ho, download_and_parse]
    | badZip =>
      cases ho : (env.day d).oldFmt with
      | ok rawo =>
        rw [ho] at holdf
        simp only [format_failed] at holdf
        simp [fetch_for_date, h1, h2, hn, ho, download_and_parse, holdf]
      | connErr sc2 => simp [fetch_for_date, h1, h2, hn, ho, download_and_parse]
      | badZip => simp [fetch_for_date, h1, h2, hn, ho, download_and_parse]
      | noCsv => simp [fetch_for_date, h1, h2, hn, ho, download_and_parse]
      | csvParseErr => simp [fetch_for_date, h1, h2, hn, ho, download_and_parse]
    | noCsv =>
      cases ho : (env.day d).oldFmt with
      | ok rawo =>
        rw [ho] at holdf
        simp only [format_failed] at holdf
        simp [fetch_for_date, h1, h2, hn, ho, download_and_parse, holdf]
      | connErr sc2 => simp [fetch_for_date, h1, h2, hn, ho, download_and_parse]
      | badZip => simp [fetch_for_date, h1, h2, hn, ho, download_and_parse]
      | noCsv => simp [fetch_for_date, h1, h2, hn, ho, download_and_parse]
      | csvParseErr => simp [fetch_for_date, h1, h2, hn, ho, download_and_parse]
    | csvParseErr =>
      cases ho : (env.day d).oldFmt with
      | ok rawo =>
        rw [ho] at holdf
        simp only [format_failed] at holdf
        simp [fetch_for_date, h1, h2, hn, ho, download_and_parse, holdf]
      | connErr sc2 => simp [fetch_for_date, h1, h2, hn, ho, download_and_parse]
      | badZip => simp [fetch_for_date, h1, h2, hn, ho, download_and_parse]
      | noCsv => simp [fetch_for_date, h1, h2, hn, ho, download_and_parse]
      | csvParseErr => simp [fetch_for_date, h1, h2, hn, ho, download_and_parse]

/-- Witness for C5: on Friday 1831 the new-format download 404s and the
old format succeeds, so the old-format rows come back with canonical
columns after two download attempts. -/
theorem fetch_for_date_format_fallback_witness :
    (is_trading_day 1831 = true ∧ (1831 : Date) ≤ envW.today ∧
     format_failed (envW.day 1831).newFmt true = true ∧
     (envW.day 1831).oldFmt = .ok rawOldW ∧
     (parse_bhav_copy rawOldW false).rows ≠ []) ∧
    (fetch_for_date envW 1831 none =
      (.ok (filter_by_series (parse_bhav_copy rawOldW false) none), 2) ∧
     ∀ c ∈ (filter_by_series (parse_bhav_copy rawOldW false) none).columns,
       c ∈ STANDARD_COLS) :=
  ⟨⟨by decide, by decide, rfl, rfl, by decide⟩,
   (fetch_for_date_format_fallback envW 1831 none (by decide) (by decide)).2.1
     rawOldW rfl rfl (by decide)⟩

/-! ## C9 — reversed ranges are normalized, with a future-date exception -/

/-- C9 (amended): a reversed range whose earlier date is not after today is
silently normalized — the dates are swapped, the end clamped down to today,
the start clamped up to `MIN_DATE` (1995-01-01) — and `fetch_for_symbol` /
`fetch_bulk` proceed over exactly the normalized range.  (When both dates
are in the future, `validate_date_range` instead raises
`NSEInvalidDateError`; see the counterexample.) -/
theorem reversed_range_normalized (fetchDay : Date → Except Err DF × Nat)
    (cache : CacheState) (uc : Bool) (symbol : String)
    (symbols : List String) (start_date end_date today : Date)
    (hgt : end_date < start_date) (hfut : end_date ≤ today) :
    validate_date_range start_date end_date today false =
      .ok (max end_date MIN_DATE, min start_date today) ∧
    fetch_for_symbol fetchDay cache uc symbol start_date end_date today =
      fetch_for_symbol_core fetchDay cache uc (strUpper (strTrim symbol))
        (max end_date MIN_DATE) (min start_date today) ∧
    fetch_bulk fetchDay cache uc symbols start_date end_date today =
      fetch_bulk_core fetchDay cache uc
        (dedup_first (symbols.map (fun x => strUpper (strTrim x))))
        (max end_date MIN_DATE) (min start_date today) := by
  have hval : validate_date_range start_date end_date today false =
      .ok (max end_date MIN_DATE, min start_date today) := by
    have hmax : (if end_date < MIN_DATE then MIN_DATE else end_date) =
        max end_date MIN_DATE := by
      rcases Nat.lt_or_ge end_date MIN_DATE with h | h
      · rw [if_pos h, Nat.max_eq_right (le_of_lt h)]
      · rw [if_neg (not_lt.mpr h), Nat.max_eq_left h]
    have hmin : (if today < start_date then today else start_date) =
        min start_date today := by
      rcases Nat.lt_or_ge today start_date with h | h
      · rw [if_pos h, Nat.min_eq_right (le_of_lt h)]
      · rw [if_neg (not_lt.mpr h), Nat.min_eq_left h]
    unfold validate_date_range
    simp only [if_pos hgt, Bool.not_false, Bool.true_and,
      decide_eq_false (not_lt.mpr hfut), Bool.false_eq_true, if_false,
      decide_eq_true_eq]
    rw [hmax, hmin]
  refine ⟨hval, ?_, ?_⟩
  · unfold fetch_for_symbol
    rw [hval]
  · unfold fetch_bulk
    rw [hval]

/-- Counterexample for C9 as stated: with today = 12000, the reversed range
(12002, 12001) has both dates in the future, and both fetches raise
`NSEInvalidDateError` instead of proceeding. -/
theorem reversed_range_counterexample :
    (12001 : Date) < 12002 ∧
    (fetch_for_symbol fdNone ⟨[], false⟩ false "X" 12002 12001 12000).result =
      .error .invalidDate ∧
    (fetch_bulk fdNone ⟨[], false⟩ false ["X"] 12002 12001 12000).result =
      .error .invalidDate := by
  decide

/-- Witness for C9 (amended) at the reversed range (12005, 11000) with
today = 12000. -/
theorem reversed_range_normalized_witness :
    ((11000 : Date) < 12005 ∧ (11000 : Date) ≤ 12000) ∧
    (validate_date_range 12005 11000 12000 false =
      .ok (max 11000 MIN_DATE, min 12005 12000) ∧
    fetch_for_symbol fdNone ⟨[], false⟩ false "X" 12005 11000 12000 =
      fetch_for_symbol_core fdNone ⟨[], false⟩ false (strUpper (strTrim "X"))
        (max 11000 MIN_DATE) (min 12005 12000) ∧
    fetch_bulk fdNone ⟨[], false⟩ false ["X"] 12005 11000 12000 =
      fetch_bulk_core fdNone ⟨[], false⟩ false
        (dedup_first (["X"].map (fun x => strUpper (strTrim x))))
        (max 11000 MIN_DATE) (min 12005 12000)) :=
  ⟨⟨by decide, by decide⟩,
   reversed_range_normalized fdNone ⟨[], false⟩ false "X" ["X"]
     12005 11000 12000 (by decide) (by decide)⟩

/-! ## C4 — a cache-write failure after a successful fetch -/

/-- C4 evaluated at the failing input: over the week 1830–1836 the per-day
fetch finds one row of `X` on Monday 1834; with a working cache the fetched
rows are returned, but when `set_ohlc`'s transaction fails the unguarded
write makes `fetch_for_symbol` raise `NSECacheError` instead of returning
the already-fetched rows — contradicting the spec's requirement that a
local cache failure never prevents the network fetch's result from being
returned. -/
theorem cache_write_failure_aborts_fetch :
    (fetch_for_symbol fdW ⟨[], false⟩ true "X" 1830 1836 12000).result =
      .ok [(1834, [("symbol", .str "X"), ("close", .num 5),
                   ("date", .dateV 1834)])] ∧
    (fetch_for_symbol fdW ⟨[], true⟩ true "X" 1830 1836 12000).result =
      .error .cacheError := by
  decide

/-! ## C1 — per-day failures are swallowed; `DataNotFoundError` iff no data -/

/-- A day that contributes rows to the walk: a trading day whose fetch
succeeds with at least one row of the requested symbol. -/
def day_yields (fetchDay : Date → Except Err DF × Nat) (symbol : String)
    (d : Date) : Bool :=
  is_trading_day d &&
    (match (fetchDay d).1 with
     | .ok df => !(day_contribution df symbol d).isEmpty
     | .error _ => false)

/-- A well-formed range (ordered, not in the future, at or after
`MIN_DATE`) passes validation unchanged. -/
theorem validate_date_range_id (s e today : Date) (hse : s ≤ e)
    (het : e ≤ today) (hms : MIN_DATE ≤ s) :
    validate_date_range s e today false = .ok (s, e) := by
  unfold validate_date_range
  simp only [if_neg (not_lt.mpr hse), Bool.not_false, Bool.true_and,
    decide_eq_false (not_lt.mpr (le_trans hse het)),
    decide_eq_false (not_lt.mpr het), Bool.false_eq_true, if_false,
    if_neg (not_lt.mpr hms)]

/-- When every per-day failure is a caught `NSEDataNotFoundError` or
`NSEConnectionError`, the walk never aborts. -/
theorem day_walk_not_aborted (fetchDay : Date → Except Err DF × Nat)
    (symbol : String) (days : List Date)
    (h : ∀ d ∈ days, ∀ er, (fetchDay d).1 = .error er →
      caught_by_walk er = true) :
    (day_walk fetchDay symbol days).aborted = none := by
  induction days with
  | nil => rfl
  | cons d rest ih =>
    have hrest := ih (fun d' hd' => h d' (List.mem_cons_of_mem _ hd'))
    simp only [day_walk]
    by_cases ht : is_trading_day d
    · simp only [ht, if_true]
      rcases hf : fetchDay d with ⟨res, n⟩
      cases res with
      | ok df => simpa using hrest
      | error er =>
        have hc := h d (List.mem_cons_self _ _) er (by rw [hf])
        simp [hc, hrest]
    · simp [ht, hrest]

/-- The walk accumulates no rows exactly when no walked day yields any. -/
theorem day_walk_all_data_empty_iff (fetchDay : Date → Except Err DF × Nat)
    (symbol : String) (days : List Date)
    (h : ∀ d ∈ days, ∀ er, (fetchDay d).1 = .error er →
      caught_by_walk er = true) :
    ((day_walk fetchDay symbol days).all_data = [] ↔
      ∀ d ∈ days, day_yields fetchDay symbol d = false) := by
  induction days with
  | nil => simp [day_walk]
  | cons d rest ih =>
    have ihr := ih (fun d' hd' => h d' (List.mem_cons_of_mem _ hd'))
    simp only [day_walk]
    by_cases ht : is_trading_day d
    · simp only [ht, if_true]
      rcases hf : fetchDay d with ⟨res, n⟩
      cases res with
      | ok df =>
        simp only [List.mem_cons, forall_eq_or_imp]
        constructor
        · intro hh
          have h2 := List.append_eq_nil.mp hh
          refine ⟨?_, ihr.mp h2.2⟩
          simp [day_yields, ht, hf, h2.1]
        · intro hpair
          obtain ⟨h1, h2⟩ := hpair
          have hcon : day_contribution df symbol d = [] := by
            simp [day_yields, ht, hf] at h1
            exact h1
          simp [hcon, ihr.mpr h2]
      | error er =>
        have hc := h d (List.mem_cons_self _ _) er (by rw [hf])
        have hy : day_yields fetchDay symbol d = false := by
          simp [day_yields, ht, hf]
        simp [hc, hy, ihr, List.mem_cons, forall_eq_or_imp]
    · have hy : day_yields fetchDay symbol d = false := by
        simp [day_yields, ht]
      simp [ht, ihr, hy]

/-- With caching disabled, `fetch_for_symbol_core` is exactly the day walk
followed by the no-data check. -/
theorem fetch_for_symbol_core_nocache (fetchDay : Date → Except Err DF × Nat)
    (symbol : String) (s e : Date) (t : OhlcTable) (wf : Bool) :
    fetch_for_symbol_core fetchDay ⟨t, wf⟩ false symbol s e =
      (match (day_walk fetchDay symbol (date_range s e)).aborted with
       | some err => ⟨.error err, t,
           (day_walk fetchDay symbol (date_range s e)).calls⟩
       | none =>
         if (day_walk fetchDay symbol (date_range s e)).all_data.isEmpty then
           ⟨.error (.dataNotFound (msgNoData symbol) (some symbol)
              (some (s, e))), t,
            (day_walk fetchDay symbol (date_range s e)).calls⟩
         else
           ⟨.ok (standardize_dataframe
              (day_walk fetchDay symbol (date_range s e)).all_data symbol), t,
            (day_walk fetchDay symbol (date_range s e)).calls⟩) := rfl

/-- C1: for every per-day behaviour whose failures are per-day
`DataNotFoundError`s or `ConnectionError`s, the walk of `fetch_for_symbol`
swallows them and continues, and the call raises `DataNotFoundError`
naming the symbol and the requested range exactly when no day in the range
yielded any data — otherwise it returns rows. -/
theorem fetch_for_symbol_per_day_tolerance
    (fetchDay : Date → Except Err DF × Nat) (t : OhlcTable) (wf : Bool)
    (symbol : String) (s e today : Date)
    (hcaught : ∀ d ∈ date_range s e, ∀ er, (fetchDay d).1 = .error er →
      caught_by_walk er = true)
    (hse : s ≤ e) (het : e ≤ today) (hms : MIN_DATE ≤ s) :
    ((∀ d ∈ date_range s e,
        day_yields fetchDay (strUpper (strTrim symbol)) d = false) →
      (fetch_for_symbol fetchDay ⟨t, wf⟩ false symbol s e today).result =
        .error (.dataNotFound (msgNoData (strUpper (strTrim symbol)))
          (some (strUpper (strTrim symbol))) (some (s, e)))) ∧
    ((∃ d ∈ date_range s e,
        day_yields fetchDay (strUpper (strTrim symbol)) d = true) →
      ∃ rows,
        (fetch_for_symbol fetchDay ⟨t, wf⟩ false symbol s e today).result =
          .ok rows) := by
  have hvr := validate_date_range_id s e today hse het hms
  have hnab := day_walk_not_aborted fetchDay (strUpper (strTrim symbol))
    (date_range s e) hcaught
  have hiff := day_walk_all_data_empty_iff fetchDay (strUpper (strTrim symbol))
    (date_range s e) hcaught
  constructor
  · intro hall
    unfold fetch_for_symbol
    rw [hvr]
    dsimp only
    rw [fetch_for_symbol_core_nocache]
    simp only [hnab]
    have hempty := hiff.mpr hall
    simp [hempty]
  · intro hex
    unfold fetch_for_symbol
    rw [hvr]
    dsimp only
    rw [fetch_for_symbol_core_nocache]
    simp only [hnab]
    have hne : ¬ (day_walk fetchDay (strUpper (strTrim symbol))
        (date_range s e)).all_data = [] := by
      intro h0
      obtain ⟨d, hd, hy⟩ := hex
      have hz := (hiff.mp h0) d hd
      rw [hy] at hz
      cases hz
    have hE : (day_walk fetchDay (strUpper (strTrim symbol))
        (date_range s e)).all_data.isEmpty = false := by
      cases hq : (day_walk fetchDay (strUpper (strTrim symbol))
          (date_range s e)).all_data.isEmpty
      · rfl
      · exact absurd (List.isEmpty_iff.mp hq) hne
    simp [hE]

/-- Witness for C1: the week 1830–1836 where only Monday 1834 yields a row
of `X` and every other trading day raises `NSEDataNotFoundError` — the
fetch returns rows, with no exception. -/
theorem fetch_for_symbol_per_day_tolerance_witness :
    ((1830 : Date) ≤ 1836 ∧ (1836 : Date) ≤ 12000 ∧ MIN_DATE ≤ 1830 ∧
     (∃ d ∈ date_range 1830 1836,
        day_yields fdW (strUpper (strTrim "X")) d = true)) ∧
    (∃ rows,
      (fetch_for_symbol fdW ⟨[], false⟩ false "X" 1830 1836 12000).result =
        .ok rows) :=
  ⟨⟨by decide, by decide, by decide, by decide⟩,
   (fetch_for_symbol_per_day_tolerance fdW [] false "X" 1830 1836 12000
      (by
        intro d _ er her
        unfold fdW at her
        split at her
        · simp at her
        · have h2 : Err.dataNotFound "holiday" none none = er := by
            simpa using her
          rw [← h2]
          rfl)
      (by decide) (by decide) (by decide)).2 (by decide)⟩

/-! ## C2 — a covering cached range is served from the cache -/

/-- A cache holding symbol `X` only on Friday 1831 and Monday 1834. -/
def tblW : OhlcTable := [entryW 1831 1, entryW 1834 2]

/-- Counterexample for C2 as stated: `tblW` is a contiguous block covering
`[1832, 1833]` (its min/max is `[1831, 1834]` and every trading day of that
block is cached), yet `fetch_for_symbol` over the weekend-only range
`[1832, 1833]` does not return the (empty) cached slice — it raises
`DataNotFoundError` (still with zero network calls). -/
theorem cache_weekend_counterexample :
    get_cached_date_range "X" tblW = some (1831, 1834) ∧
    ((date_range 1831 1834).filter is_trading_day).all
      (fun d => (tblW.map OhlcEntry.trade_date).contains d) = true ∧
    ((1831 : Date) ≤ 1832 ∧ (1833 : Date) ≤ 1834) ∧
    (fetch_for_symbol fdNone ⟨tblW, false⟩ true "X" 1832 1833 12000).result =
      .error (.dataNotFound (msgNoData "X") (some "X") (some (1832, 1833))) ∧
    (fetch_for_symbol fdNone ⟨tblW, false⟩ true "X" 1832 1833
        12000).networkCalls = 0 := by
  decide

/-- Membership in the walked day range is the pair of bounds (over `Nat`,
stated so that `omega` sees the arithmetic). -/
theorem mem_range_add (s e d : Nat) :
    d ∈ (List.range (e + 1 - s)).map (fun k => s + k) ↔ s ≤ d ∧ d ≤ e := by
  simp only [List.mem_map, List.mem_range]
  constructor
  · rintro ⟨k, hk, rfl⟩
    constructor
    · omega
    · omega
  · intro hp
    obtain ⟨h1, h2⟩ := hp
    refine ⟨d - s, ?_, ?_⟩
    · omega
    · omega

/-- Membership in the walked day range is the pair of bounds. -/
theorem mem_date_range (s e d : Date) :
    d ∈ date_range s e ↔ s ≤ d ∧ d ≤ e := by
  unfold date_range
  exact mem_range_add s e d

/-- C2 (amended): if the cache holds a contiguous block of rows for the
symbol whose `[min, max]` covers `[s, e]`, and the requested range contains
at least one trading day, then `fetch_for_symbol` returns the cached slice
directly, leaves the cache unchanged, and attempts no network download. -/
theorem fetch_for_symbol_cache_hit
    (fetchDay : Date → Except Err DF × Nat) (t : OhlcTable) (wf : Bool)
    (symbol S : String) (s e today cs ce : Date)
    (hS : strUpper (strTrim symbol) = S)
    (hrange : get_cached_date_range S t = some (cs, ce))
    (hcov : cs ≤ s ∧ e ≤ ce)
    (hcontig : ∀ d ∈ date_range cs ce, is_trading_day d = true →
      ∃ x ∈ t, x.symbol = strUpper S ∧ x.trade_date = d)
    (htrade : ∃ d ∈ date_range s e, is_trading_day d = true)
    (hse : s ≤ e) (het : e ≤ today) (hms : MIN_DATE ≤ s) :
    ∃ rows, get_ohlc S s e t = some rows ∧
      fetch_for_symbol fetchDay ⟨t, wf⟩ true symbol s e today =
        ⟨.ok rows, t, 0⟩ := by
  obtain ⟨d0, hd0, htr⟩ := htrade
  have hd0b : s ≤ d0 ∧ d0 ≤ e := (mem_date_range s e d0).mp hd0
  have hd0c : d0 ∈ date_range cs ce :=
    (mem_date_range cs ce d0).mpr
      ⟨le_trans hcov.1 hd0b.1, le_trans hd0b.2 hcov.2⟩
  obtain ⟨x0, hx0t, hx0s, hx0d⟩ := hcontig d0 hd0c htr
  have hx0f : x0 ∈ t.filter (fun x =>
      x.symbol == strUpper S && s ≤ x.trade_date && x.trade_date ≤ e) := by
    rw [List.mem_filter]
    refine ⟨hx0t, ?_⟩
    simp [hx0s, hx0d, hd0b.1, hd0b.2]
  have hselne : (t.filter (fun x =>
      x.symbol == strUpper S && s ≤ x.trade_date && x.trade_date ≤ e)) ≠ [] :=
    List.ne_nil_of_mem hx0f
  have hsortne : ((t.filter (fun x =>
      x.symbol == strUpper S && s ≤ x.trade_date &&
        x.trade_date ≤ e)).insertionSort
        (fun a b => a.trade_date ≤ b.trade_date)) ≠ [] := by
    intro h0
    have hp := List.perm_insertionSort
      (fun a b => a.trade_date ≤ b.trade_date)
      (t.filter (fun x =>
        x.symbol == strUpper S && s ≤ x.trade_date && x.trade_date ≤ e))
    rw [h0] at hp
    exact hselne (List.Perm.nil_eq hp).symm
  have hsortE : ((t.filter (fun x =>
      x.symbol == strUpper S && s ≤ x.trade_date &&
        x.trade_date ≤ e)).insertionSort
        (fun a b => a.trade_date ≤ b.trade_date)).isEmpty = false := by
    cases hq : ((t.filter (fun x =>
        x.symbol == strUpper S && s ≤ x.trade_date &&
          x.trade_date ≤ e)).insertionSort
          (fun a b => a.trade_date ≤ b.trade_date)).isEmpty
    · rfl
    · exact absurd (List.isEmpty_iff.mp hq) hsortne
  have hget : get_ohlc S s e t = some (((t.filter (fun x =>
      x.symbol == strUpper S && s ≤ x.trade_date &&
        x.trade_date ≤ e)).insertionSort
        (fun a b => a.trade_date ≤ b.trade_date)).map
          (fun x => (x.trade_date, x.toRow))) := by
    unfold get_ohlc
    simp only [hsortE, Bool.false_eq_true, if_false]
  refine ⟨_, hget, ?_⟩
  have hrowsE : (((t.filter (fun x =>
      x.symbol == strUpper S && s ≤ x.trade_date &&
        x.trade_date ≤ e)).insertionSort
        (fun a b => a.trade_date ≤ b.trade_date)).map
          (fun x => (x.trade_date, x.toRow))).isEmpty = false := by
    rw [List.isEmpty_eq_false_iff_exists_mem] at hsortE ⊢
    obtain ⟨y, hy⟩ := hsortE
    exact ⟨_, List.mem_map_of_mem _ hy⟩
  have hcond : (decide (cs ≤ s) && decide (e ≤ ce)) = true := by
    simp [hcov.1, hcov.2]
  unfold fetch_for_symbol
  rw [validate_date_range_id s e today hse het hms]
  dsimp only
  rw [hS]
  unfold fetch_for_symbol_core
  simp only [hget, hrowsE, hrange, hcond, Bool.not_false, if_true]

/-- A cache holding symbol `X` on the consecutive trading days 1830, 1831
and 1834 — a contiguous block covering `[1831, 1834]`. -/
def tblC : OhlcTable := [entryW 1830 1, entryW 1831 2, entryW 1834 3]

/-- Witness for C2 (amended): requesting `[1831, 1834]` over `tblC` is
served from the cache with zero downloads. -/
theorem fetch_for_symbol_cache_hit_witness :
    (strUpper (strTrim "X") = "X" ∧
     get_cached_date_range "X" tblC = some (1830, 1834) ∧
     ((1830 : Date) ≤ 1831 ∧ (1834 : Date) ≤ 1834) ∧
     (∀ d ∈ date_range 1830 1834, is_trading_day d = true →
        ∃ x ∈ tblC, x.symbol = strUpper "X" ∧ x.trade_date = d) ∧
     (∃ d ∈ date_range 1831 1834, is_trading_day d = true)) ∧
    (∃ rows, get_ohlc "X" 1831 1834 tblC = some rows ∧
      fetch_for_symbol fdNone ⟨tblC, false⟩ true "X" 1831 1834 12000 =
        ⟨.ok rows, tblC, 0⟩) :=
  ⟨⟨by decide, by decide, ⟨by decide, by decide⟩, by decide, by decide⟩,
   fetch_for_symbol_cache_hit fdNone tblC false "X" "X" 1831 1834 12000
     1830 1834 (by decide) (by decide) ⟨by decide, by decide⟩ (by decide)
     (by decide) (by decide) (by decide) (by decide)⟩

end NSEFeed
